import Mathlib

/-!
Verification of the Lua configuration-dialog module of this repository
(src/src/auto4_lua_dialog.cpp): descriptor-driven control construction,
button resolution, readback, and the serialise/unserialise round trip.

Modelling conventions.
Strings are modelled as lists of characters.  Lua numbers, which the
dialog code reads with lua_tointeger / lua_tonumber, are modelled as
integers (no claim exercises a non-integral value), so the C++ double
fields of FloatEdit are integers here and std::to_string on such a
double prints six zero decimal places, as the %f format does.
-/

namespace AegisubDialog

/-- Strings as lists of characters. -/
abbrev Str := List Char

/-- Convert a Lean string literal to the list-of-characters model. -/
def s2l (s : String) : Str := s.data

/-- Modelled from the spec: the codec of `string_codec.h` is not under
`src/`; per spec section 4.1 the characters that must never appear
unescaped in encoded output are the structural delimiter, the field
separator, and the escape character itself. -/
def needsEscape (c : Char) : Bool := c == '$' || c == '|' || c == ':'

/-- Upper-case hexadecimal digit for a value below 16. -/
def hexDigit (n : Nat) : Char :=
  if n < 10 then Char.ofNat (48 + n) else Char.ofNat (65 + (n - 10))

/-- Value of a hexadecimal digit character; a non-digit yields 0
(best-effort decoding of malformed escapes, which must never raise). -/
def hexVal (c : Char) : Nat :=
  if 48 ≤ c.toNat ∧ c.toNat ≤ 57 then c.toNat - 48
  else if 65 ≤ c.toNat ∧ c.toNat ≤ 70 then c.toNat - 65 + 10
  else if 97 ≤ c.toNat ∧ c.toNat ≤ 102 then c.toNat - 97 + 10
  else 0

/-- Modelled from the spec: `inline_string_encode` (in `string_codec.h`,
not under `src/`).  Each character needing escape is replaced by the
escape character followed by its two hexadecimal digits; every other
character passes through unchanged. -/
def inline_string_encode : Str → Str
  | [] => []
  | c :: rest =>
    if needsEscape c then
      '$' :: hexDigit (c.toNat / 16) :: hexDigit (c.toNat % 16) :: inline_string_encode rest
    else
      c :: inline_string_encode rest

/-- Modelled from the spec: `inline_string_decode` (in `string_codec.h`,
not under `src/`).  An escape character followed by two characters decodes
their hexadecimal value; a trailing truncated escape is dropped
(best-effort, never raises); all other characters pass through. -/
def inline_string_decode : Str → Str
  | [] => []
  | '$' :: h :: l :: rest => Char.ofNat (16 * hexVal h + hexVal l) :: inline_string_decode rest
  | '$' :: rest => inline_string_decode rest
  | c :: rest => c :: inline_string_decode rest

/-- Decimal digit character. -/
def natDigitChar (n : Nat) : Char := Char.ofNat (48 + n)

/-- Decimal representation of a natural number, accumulator form; the
fuel argument bounds the digit count (structural recursion so that the
function reduces definitionally). -/
def natToStrGo (fuel : Nat) (n : Nat) (acc : Str) : Str :=
  match fuel with
  | 0 => acc
  | fuel + 1 =>
    if n < 10 then natDigitChar n :: acc
    else natToStrGo fuel (n / 10) (natDigitChar (n % 10) :: acc)

def natToStr (n : Nat) : Str := natToStrGo (n + 1) n []

/-- Decimal representation of an integer, as `std::to_string(int)` and
Lua's number-to-string conversion print it for integral values. -/
def intToStr (n : Int) : Str :=
  if n < 0 then '-' :: natToStr (-n).toNat else natToStr n.toNat

/-- Representation of `std::to_string(double)` (the `%f` format, six
decimal places); doubles are modelled as integers, so the fraction part
is six zeros. -/
def doubleToStr (n : Int) : Str := intToStr n ++ s2l ".000000"

/-- Dynamically-typed Lua values as the dialog code consumes them:
strings, numbers (modelled as integers), booleans, array-shaped tables
(iterated in order) and record-shaped tables (looked up by string key,
iterated as key/value pairs in order). -/
inductive LuaValue where
  | vstr (s : Str)
  | vnum (n : Int)
  | vbool (b : Bool)
  | varr (xs : List LuaValue)
  | vmap (fields : List (Str × LuaValue))

/-- A control descriptor: the record-shaped table a control is built from. -/
abbrev Descriptor := List (Str × LuaValue)

/-- Field lookup in a descriptor (`lua_getfield`); first binding wins. -/
def lookupField (d : Descriptor) (name : Str) : Option LuaValue :=
  match d with
  | [] => none
  | (k, v) :: rest => if k = name then some v else lookupField rest name

/-- String read of a field (`get_field` with a string default);
`lua_isstring` also accepts numbers, converting them to their decimal
text. -/
def getFieldStr (d : Descriptor) (name : Str) (dflt : Str) : Str :=
  match lookupField d name with
  | some (.vstr s) => s
  | some (.vnum n) => intToStr n
  | _ => dflt

/-- Integer read of a field (`get_field` with an int default); a value
that is not a number leaves the default. -/
def getFieldInt (d : Descriptor) (name : Str) (dflt : Int) : Int :=
  match lookupField d name with
  | some (.vnum n) => n
  | _ => dflt

/-- Boolean read of a field (`get_field` with a bool default);
`lua_isboolean` accepts only booleans. -/
def getFieldBool (d : Descriptor) (name : Str) (dflt : Bool) : Bool :=
  match lookupField d name with
  | some (.vbool b) => b
  | _ => dflt

/-- Entries of a string value for `read_string_array`: strings are kept,
numbers are kept as their text (`lua_isstring` accepts them), everything
else is skipped. -/
def stringEntry : LuaValue → Option Str
  | .vstr s => some s
  | .vnum n => some (intToStr n)
  | _ => none

/-- `read_string_array`: iterate a table keeping the string entries in
order; a non-table yields nothing. -/
def readStringArray : LuaValue → List Str
  | .varr xs => xs.filterMap stringEntry
  | .vmap ps => (ps.map (fun p => p.2)).filterMap stringEntry
  | _ => []

/-- Platform `INT_MIN`, a 32-bit int. -/
def INT_MIN : Int := -(2 ^ 31)

/-- Platform `INT_MAX`, a 32-bit int. -/
def INT_MAX : Int := 2 ^ 31 - 1

/-- Integral value of `DBL_MAX`, `(2^53 - 1) * 2^971`. -/
def DBL_MAX_INT : Int := (2 ^ 53 - 1) * 2 ^ 971

/-- Shared attributes read by the `LuaDialogControl` base constructor. -/
structure ControlBase where
  name : Str
  hint : Str
  x : Int
  y : Int
  width : Int
  height : Int
deriving DecidableEq, Repr

/-- `LuaDialogControl::LuaDialogControl`: read the shared attributes. -/
def ControlBase.build (d : Descriptor) : ControlBase :=
  { name := getFieldStr d (s2l "name") []
    hint := getFieldStr d (s2l "hint") []
    x := getFieldInt d (s2l "x") 0
    y := getFieldInt d (s2l "y") 0
    width := getFieldInt d (s2l "width") 1
    height := getFieldInt d (s2l "height") 1 }

/-- The closed control catalog.  `IntEdit` and `FloatEdit` derive from
`Edit` in the source and therefore also carry its `text` field. -/
inductive Control where
  | label (base : ControlBase) (labelText : Str)
  | edit (base : ControlBase) (text : Str)
  | color (base : ControlBase) (colorValue : Str) (alpha : Bool)
  | textbox (base : ControlBase) (text : Str)
  | intEdit (base : ControlBase) (text : Str) (value min max : Int)
  | floatEdit (base : ControlBase) (text : Str) (value min max step : Int)
  | dropdown (base : ControlBase) (items : List Str) (value : Str)
  | checkbox (base : ControlBase) (labelText : Str) (value : Bool)
deriving DecidableEq, Repr

/-- Shared attributes of a control. -/
def Control.base : Control → ControlBase
  | .label b _ => b
  | .edit b _ => b
  | .color b _ _ => b
  | .textbox b _ => b
  | .intEdit b _ _ _ _ => b
  | .floatEdit b _ _ _ _ _ => b
  | .dropdown b _ _ => b
  | .checkbox b _ _ => b

/-- Identity of a control. -/
def Control.name (c : Control) : Str := c.base.name

/-- `Label::Label`: read the label text. -/
def Label.build (d : Descriptor) : Control :=
  .label (ControlBase.build d) (getFieldStr d (s2l "label") [])

/-- `Edit::Edit` body: the text first comes from the `value` key, then the
`text` key overrides it when present. -/
def Edit.buildText (d : Descriptor) : Str :=
  let text := getFieldStr d (s2l "value") []
  getFieldStr d (s2l "text") text

/-- `Edit::Edit`. -/
def Edit.build (d : Descriptor) : Control :=
  .edit (ControlBase.build d) (Edit.buildText d)

/-- `Textbox::Textbox`: identical to `Edit` up to the rendering hint. -/
def Textbox.build (d : Descriptor) : Control :=
  .textbox (ControlBase.build d) (Edit.buildText d)

/-- `IntEdit::IntEdit`: read value, min and max; an inverted or empty
range (`min >= max`) snaps both bounds to the full int range. -/
def IntEdit.build (d : Descriptor) : Control :=
  let value := getFieldInt d (s2l "value") 0
  let min := getFieldInt d (s2l "min") INT_MIN
  let max := getFieldInt d (s2l "max") INT_MAX
  if min ≥ max then
    .intEdit (ControlBase.build d) (Edit.buildText d) value INT_MIN INT_MAX
  else
    .intEdit (ControlBase.build d) (Edit.buildText d) value min max

/-- `FloatEdit::FloatEdit`: like `IntEdit` with double bounds and a step. -/
def FloatEdit.build (d : Descriptor) : Control :=
  let value := getFieldInt d (s2l "value") 0
  let min := getFieldInt d (s2l "min") (-DBL_MAX_INT)
  let max := getFieldInt d (s2l "max") DBL_MAX_INT
  let step := getFieldInt d (s2l "step") 0
  if min ≥ max then
    .floatEdit (ControlBase.build d) (Edit.buildText d) value (-DBL_MAX_INT) DBL_MAX_INT step
  else
    .floatEdit (ControlBase.build d) (Edit.buildText d) value min max step

/-- Items list of a Dropdown descriptor: `read_string_array` over the
`items` field. -/
def dropdownItems (d : Descriptor) : List Str :=
  readStringArray ((lookupField d (s2l "items")).getD (.vbool false))

/-- `Dropdown::Dropdown`: when the items list is non-empty and the value
is not a member, the value resets to the first item. -/
def Dropdown.build (d : Descriptor) : Control :=
  let value := getFieldStr d (s2l "value") []
  let items := dropdownItems d
  if 0 < items.length ∧ value ∉ items then
    .dropdown (ControlBase.build d) items (items.headD [])
  else
    .dropdown (ControlBase.build d) items value

/-- `Checkbox::Checkbox`. -/
def Checkbox.build (d : Descriptor) : Control :=
  .checkbox (ControlBase.build d)
    (getFieldStr d (s2l "label") [])
    (getFieldBool d (s2l "value") false)

/-- Modelled from the spec: `agi::Color` (libaegisub, not under `src/`)
parses its source representation; the color is modelled as the string it
was built from. -/
def colorFromString (s : Str) : Str := s

/-- Modelled from the spec: `agi::Color::GetHexFormatted` (libaegisub,
not under `src/`) renders the hex form, including an alpha channel iff
the flag is set; on the string model it returns the stored text. -/
def colorHexFormatted (v : Str) (_alpha : Bool) : Str := v

/-- `Color::Color`: read the color value; the alpha flag is fixed at
construction. -/
def Color.build (d : Descriptor) (alpha : Bool) : Control :=
  .color (ControlBase.build d) (colorFromString (getFieldStr d (s2l "value") [])) alpha

/-- ASCII lower-casing of one character (`boost::to_lower`). -/
def asciiLower (c : Char) : Char :=
  if 65 ≤ c.toNat ∧ c.toNat ≤ 90 then Char.ofNat (c.toNat + 32) else c

/-- ASCII lower-casing of a string. -/
def toLowerStr (s : Str) : Str := s.map asciiLower

/-- `CanSerialiseValue`: false only for `Label` (the base-class default);
every other variant overrides it to true. -/
def Control.CanSerialiseValue : Control → Bool
  | .label _ _ => false
  | _ => true

/-- `SerialiseValue` of each variant.  `Edit`, `Color` and `Dropdown`
encode their value through the codec; `IntEdit`, `FloatEdit` and
`Checkbox` print it directly. -/
def Control.SerialiseValue : Control → Str
  | .label _ _ => []
  | .edit _ t => inline_string_encode t
  | .color _ v a => inline_string_encode (colorHexFormatted v a)
  | .textbox _ t => inline_string_encode t
  | .intEdit _ _ v _ _ => intToStr v
  | .floatEdit _ _ v _ _ _ => doubleToStr v
  | .dropdown _ _ v => inline_string_encode v
  | .checkbox _ _ b => if b then s2l "1" else s2l "0"

/-- The raw string a variant serialises, before any codec encoding: the
argument of `inline_string_encode` where the variant calls it, and the
printed value itself for `IntEdit`, `FloatEdit` and `Checkbox`. -/
def Control.rawSerialValue : Control → Str
  | .label _ _ => []
  | .edit _ t => t
  | .color _ v a => colorHexFormatted v a
  | .textbox _ t => t
  | .intEdit _ _ v _ _ => intToStr v
  | .floatEdit _ _ v _ _ _ => doubleToStr v
  | .dropdown _ _ v => v
  | .checkbox _ _ b => if b then s2l "1" else s2l "0"

/-- `atoi`: skip leading whitespace, read an optional sign and then the
longest digit run; no digits yields 0. -/
def cppAtoi (s : Str) : Int :=
  let s1 := s.dropWhile (fun c => c = ' ' ∨ c = '\t' ∨ c = '\n' ∨
    c = Char.ofNat 11 ∨ c = Char.ofNat 12 ∨ c = '\r')
  let signed : Bool × Str :=
    match s1 with
    | '-' :: rest => (true, rest)
    | '+' :: rest => (false, rest)
    | _ => (false, s1)
  let digits := signed.2.takeWhile (fun c => 48 ≤ c.toNat ∧ c.toNat ≤ 57)
  let mag : Int := digits.foldl (fun acc c => 10 * acc + (c.toNat - 48 : Nat)) 0
  if signed.1 then -mag else mag

/-- `atof` on the integer model of doubles: the integral part of the
parse, faithful on every value `SerialiseValue` can produce here. -/
def cppAtof (s : Str) : Int := cppAtoi s

/-- `UnserialiseValue` of each variant (never called on `Label`, which is
not serializable). -/
def Control.UnserialiseValue (c : Control) (v : Str) : Control :=
  match c with
  | .label b l => .label b l
  | .edit b _ => .edit b (inline_string_decode v)
  | .color b _ a => .color b (colorFromString (inline_string_decode v)) a
  | .textbox b _ => .textbox b (inline_string_decode v)
  | .intEdit b t _ lo hi => .intEdit b t (cppAtoi v) lo hi
  | .floatEdit b t _ lo hi st => .floatEdit b t (cppAtof v) lo hi st
  | .dropdown b items _ => .dropdown b items (inline_string_decode v)
  | .checkbox b l _ => .checkbox b l (decide (v ≠ s2l "0"))

/-- Values a control reads back to the scripting layer. -/
inductive RBValue where
  | rnil
  | rstr (s : Str)
  | rint (n : Int)
  | rnum (n : Int)
  | rbool (b : Bool)
deriving DecidableEq, Repr

/-- `LuaReadBack` of each variant: `Label` yields nil, text-like variants
their text, numeric variants their value, `Checkbox` its boolean. -/
def Control.LuaReadBack : Control → RBValue
  | .label _ _ => .rnil
  | .edit _ t => .rstr t
  | .color _ v a => .rstr (colorHexFormatted v a)
  | .textbox _ t => .rstr t
  | .intEdit _ _ v _ _ => .rint v
  | .floatEdit _ _ v _ _ _ => .rnum v
  | .dropdown _ _ v => .rstr v
  | .checkbox _ _ b => .rbool b

/-- Projection: text of an `Edit` or `Textbox` control. -/
def Control.editText : Control → Option Str
  | .edit _ t => some t
  | .textbox _ t => some t
  | _ => none

/-- Projection: effective (min, max) range of an `IntEdit` control. -/
def Control.intRange : Control → Option (Int × Int)
  | .intEdit _ _ _ lo hi => some (lo, hi)
  | _ => none

/-- Projection: selected value of a `Dropdown` control. -/
def Control.dropdownValue : Control → Option Str
  | .dropdown _ _ v => some v
  | _ => none

/-- The `ButtonIds` enumeration. -/
def BTN_OK : Int := 0
def BTN_YES : Int := 1
def BTN_SAVE : Int := 2
def BTN_APPLY : Int := 3
def BTN_CLOSE : Int := 4
def BTN_NO : Int := 5
def BTN_CANCEL : Int := 6
def BTN_HELP : Int := 7
def BTN_CONTEXT_HELP : Int := 8

/-- `string_to_button_id`: the fixed lowercase semantic-name table; an
unknown name yields -1. -/
def string_to_button_id (s : Str) : Int :=
  if s = s2l "ok" then BTN_OK
  else if s = s2l "yes" then BTN_YES
  else if s = s2l "save" then BTN_SAVE
  else if s = s2l "apply" then BTN_APPLY
  else if s = s2l "close" then BTN_CLOSE
  else if s = s2l "no" then BTN_NO
  else if s = s2l "cancel" then BTN_CANCEL
  else if s = s2l "help" then BTN_HELP
  else if s = s2l "context_help" then BTN_CONTEXT_HELP
  else -1

/-- `check_string`: a string is accepted as is, a number as its text
(`luaL_checkstring` coerces numbers); anything else raises. -/
def checkString : LuaValue → Except Str Str
  | .vstr s => .ok s
  | .vnum n => .ok (intToStr n)
  | _ => .error (s2l "not a string")

/-- Values iterated by `lua_for_each` over a table in order; a non-table
yields none. -/
def iterValues : LuaValue → Option (List LuaValue)
  | .varr xs => some xs
  | .vmap ps => some (ps.map (fun p => p.2))
  | _ => none

/-- Key/value pairs iterated by `lua_for_each`; an array-shaped table has
the numeric keys 1..n. -/
def iterPairs : LuaValue → Option (List (LuaValue × LuaValue))
  | .vmap ps => some (ps.map (fun p => (.vstr p.1, p.2)))
  | .varr xs => some (xs.enum.map (fun p => (.vnum (p.1 + 1), p.2)))
  | _ => none

/-- One control entry of the dialog table: class dispatch of the
constructor body.  Class names compare case-insensitively; the legacy
alias `alpha` builds a plain `Edit`; an unrecognized class, or an entry
that is not a record-shaped table, is a construction error. -/
def controlFromDescriptor (entry : LuaValue) : Except Str Control :=
  match entry with
  | .vmap d =>
    let cls := toLowerStr (getFieldStr d (s2l "class") [])
    if cls = s2l "label" then .ok (Label.build d)
    else if cls = s2l "edit" then .ok (Edit.build d)
    else if cls = s2l "intedit" then .ok (IntEdit.build d)
    else if cls = s2l "floatedit" then .ok (FloatEdit.build d)
    else if cls = s2l "textbox" then .ok (Textbox.build d)
    else if cls = s2l "dropdown" then .ok (Dropdown.build d)
    else if cls = s2l "checkbox" then .ok (Checkbox.build d)
    else if cls = s2l "color" then .ok (Color.build d false)
    else if cls = s2l "coloralpha" then .ok (Color.build d true)
    else if cls = s2l "alpha" then .ok (Edit.build d)
    else .error (s2l "bad control table entry")
  | _ => .error (s2l "bad control table entry")

/-- Iterate the dialog table building one control per entry; a non-table
argument is the fatal shape error. -/
def buildControls (arg1 : LuaValue) : Except Str (List Control) :=
  match iterValues arg1 with
  | none => .error (s2l "Cannot create config dialog from something non-table")
  | some entries => entries.mapM controlFromDescriptor

/-- Read the ordered button label list (stack position 2): each entry
must be a string; every button starts with id -1.  A non-table argument
contributes no buttons. -/
def readButtonLabels (arg2 : LuaValue) : Except Str (List (Int × Str)) :=
  match iterValues arg2 with
  | none => .ok []
  | some xs => xs.mapM (fun v => (checkString v).map (fun s => ((-1 : Int), s)))

/-- One entry of the button id map: look the semantic name up in the
fixed table, find the first button whose label matches, and assign it the
id; no matching label is a construction error naming the semantic name. -/
def applyIdMapEntry (buttons : List (Int × Str)) (key val : LuaValue) :
    Except Str (List (Int × Str)) := do
  let keyS ← checkString key
  let id := string_to_button_id keyS
  let label ← checkString val
  match buttons.findIdx? (fun b => b.2 = label) with
  | none => .error (s2l "Invalid button for id " ++ keyS)
  | some i => .ok (buttons.set i (id, label))

/-- Apply the whole button id map (stack position 3); a non-table
argument changes nothing. -/
def applyIdMap (buttons : List (Int × Str)) (arg3 : LuaValue) :
    Except Str (List (Int × Str)) :=
  match iterPairs arg3 with
  | none => .ok buttons
  | some ps => ps.foldlM (fun bs p => applyIdMapEntry bs p.1 p.2) buttons

/-- The dialog aggregate: the ordered controls, the ordered buttons, the
`use_buttons` flag and the pushed-button index (-1 = none). -/
structure LuaDialog where
  use_buttons : Bool
  controls : List Control
  buttons : List (Int × Str)
  button_pushed : Int
deriving DecidableEq, Repr

/-- `LuaDialog::LuaDialog` from the three positional inputs.  Buttons are
read only when requested; an empty resulting button list defaults to
OK/Cancel.  The pushed-button sentinel starts at -1 (its initializer
lives in the header `auto4_lua.h`, outside `src/`; the spec's "no button
was pushed" sentinel). -/
def LuaDialog.build (include_buttons : Bool) (arg1 arg2 arg3 : LuaValue) :
    Except Str LuaDialog := do
  let controls ← buildControls arg1
  let buttons1 ← if include_buttons then readButtonLabels arg2 else pure []
  let buttons2 ← if include_buttons then applyIdMap buttons1 arg3 else pure buttons1
  let buttons3 := if buttons2.isEmpty then
      [(BTN_OK, s2l "OK"), (BTN_CANCEL, s2l "Cancel")]
    else buttons2
  pure { use_buttons := include_buttons, controls := controls,
         buttons := buttons3, button_pushed := -1 }

/-- `LuaDialog::PushButton`: an index outside `[0, buttonCount)` other
than the sentinel is clamped to the sentinel -1 rather than raising. -/
def LuaDialog.PushButton (d : LuaDialog) (button : Int) : LuaDialog :=
  if button ≠ -1 ∧ (button < 0 ∨ button ≥ (d.buttons.length : Int)) then
    { d with button_pushed := -1 }
  else
    { d with button_pushed := button }

/-- Activation value of the readback: the boolean false, or the pushed
button's label. -/
inductive Activation where
  | cancelled
  | activated (labelText : Str)
deriving DecidableEq, Repr

/-- Activation part of `LuaDialog::LuaReadBack`: yielded only when
`use_buttons`; false when no button was pushed or the pushed button's id
is CANCEL, else the pushed button's label. -/
def LuaDialog.readBackActivation (d : LuaDialog) : Option Activation :=
  if d.use_buttons then
    if d.button_pushed = -1 ∨
        (d.buttons.getD d.button_pushed.toNat (0, [])).1 = BTN_CANCEL then
      some .cancelled
    else
      some (.activated (d.buttons.getD d.button_pushed.toNat (0, [])).2)
  else
    none

/-- Value part of `LuaDialog::LuaReadBack`: name/value pairs in control
insertion order (the Lua table built by `lua_setfield` keeps the last
binding of a repeated name). -/
def LuaDialog.readBackValues (d : LuaDialog) : List (Str × RBValue) :=
  d.controls.map (fun c => (c.name, c.LuaReadBack))

/-- `LuaDialog::Serialise`: the accumulating loop over the controls,
emitting `Encode(name) ++ ":" ++ SerialiseValue()` for each serializable
control, separated by `|`. -/
def LuaDialog.Serialise (d : LuaDialog) : Str :=
  d.controls.foldl
    (fun res c =>
      if c.CanSerialiseValue then
        (if res = [] then res else res ++ ['|']) ++
          inline_string_encode c.name ++ ':' :: c.SerialiseValue
      else res)
    []

/-- Split a token at its first `:`; none when the token has no `:`. -/
def splitFirstColon : Str → Option (Str × Str)
  | [] => none
  | c :: rest =>
    if c = ':' then some ([], rest)
    else (splitFirstColon rest).map (fun p => (c :: p.1, p.2))

/-- Body of the `Unserialise` loop for one token: skip it when it has no
`:`, otherwise decode the name part and hand the raw value to every
serializable control with that name. -/
def LuaDialog.unserialiseTok (d : LuaDialog) (tok : Str) : LuaDialog :=
  match splitFirstColon tok with
  | none => d
  | some (enc, value) =>
    let name := inline_string_decode enc
    { d with controls := d.controls.map (fun c =>
        if c.name = name ∧ c.CanSerialiseValue = true then
          c.UnserialiseValue value
        else c) }

/-- `LuaDialog::Unserialise`: split on `|` (`agi::Split`, which keeps
empty tokens) and process each token in order. -/
def LuaDialog.Unserialise (d : LuaDialog) (s : Str) : LuaDialog :=
  (List.splitOn '|' s).foldl LuaDialog.unserialiseTok d

/-- The serialized-state grammar `entry ("|" entry)*`: join entries with
the structural delimiter. -/
def joinPipe : List Str → Str
  | [] => []
  | [e] => e
  | e :: rest => e ++ '|' :: joinPipe rest

/-- Delimiter-prefixed concatenation of entries, the shape the
accumulating `Serialise` loop produces after a first entry. -/
def tailJoinPipe (es : List Str) : Str := (es.map (fun e => '|' :: e)).flatten

/-- One emitted entry of `Serialise`. -/
def serialiseEntry (c : Control) : Str :=
  inline_string_encode c.name ++ ':' :: c.SerialiseValue

/-- Descriptor of the Edit control of the round-trip test dialog. -/
def c2desc1 : Descriptor :=
  [(s2l "class", .vstr (s2l "edit")), (s2l "name", .vstr (s2l "a")),
   (s2l "value", .vstr (s2l "hello|world"))]

/-- Descriptor of the IntEdit control of the round-trip test dialog. -/
def c2desc2 : Descriptor :=
  [(s2l "class", .vstr (s2l "intedit")), (s2l "name", .vstr (s2l "b")),
   (s2l "value", .vnum 5), (s2l "min", .vnum 0), (s2l "max", .vnum 10)]

/-- Descriptor of the Checkbox control of the round-trip test dialog. -/
def c2desc3 : Descriptor :=
  [(s2l "class", .vstr (s2l "checkbox")), (s2l "name", .vstr (s2l "c")),
   (s2l "value", .vbool true)]

/-- The control table of the round-trip test dialog. -/
def c2arg1 : LuaValue := .varr [.vmap c2desc1, .vmap c2desc2, .vmap c2desc3]

/-- An IntEdit descriptor with the inverted range min=10, max=5. -/
def c5desc : Descriptor :=
  [(s2l "class", .vstr (s2l "intedit")),
   (s2l "min", .vnum 10), (s2l "max", .vnum 5)]

/-- A Dropdown descriptor with items `["a","b"]` and the stale value `"z"`. -/
def c6desc : Descriptor :=
  [(s2l "class", .vstr (s2l "dropdown")),
   (s2l "items", .varr [.vstr (s2l "a"), .vstr (s2l "b")]),
   (s2l "value", .vstr (s2l "z"))]

/-- A concrete dialog state with the default OK/Cancel buttons and the
OK button pushed, used to instantiate the readback and unserialise
theorems. -/
def wdialog : LuaDialog :=
  { use_buttons := true
    controls := [.checkbox ⟨s2l "c", [], 0, 0, 1, 1⟩ [] false]
    buttons := [(BTN_OK, s2l "OK"), (BTN_CANCEL, s2l "Cancel")]
    button_pushed := 0 }

/-- A concrete button list for instantiating the id-map resolution. -/
def c8buttons : List (Int × Str) := [(-1, s2l "Accept"), (-1, s2l "Cancel")]

/-- An Edit descriptor carrying both a `value` and a `text` key. -/
def c10desc : Descriptor :=
  [(s2l "class", .vstr (s2l "edit")),
   (s2l "value", .vstr (s2l "fromvalue")), (s2l "text", .vstr (s2l "fromtext"))]

theorem needsEscape_iff (c : Char) :
    needsEscape c = true ↔ c = '$' ∨ c = '|' ∨ c = ':' := by
  simp [needsEscape, or_assoc]

theorem encode_esc (c : Char) (h : needsEscape c = true) (rest : Str) :
    inline_string_encode (c :: rest) =
      '$' :: hexDigit (c.toNat / 16) :: hexDigit (c.toNat % 16) :: inline_string_encode rest := by
  simp [inline_string_encode, h]

theorem encode_plain (c : Char) (h : needsEscape c = false) (rest : Str) :
    inline_string_encode (c :: rest) = c :: inline_string_encode rest := by
  simp [inline_string_encode, h]

theorem decode_esc (h l : Char) (rest : Str) :
    inline_string_decode ('$' :: h :: l :: rest) =
      Char.ofNat (16 * hexVal h + hexVal l) :: inline_string_decode rest := rfl

theorem decode_plain (c : Char) (hne : c ≠ '$') (rest : Str) :
    inline_string_decode (c :: rest) = c :: inline_string_decode rest := by
  match rest with
  | [] => simp [inline_string_decode, hne]
  | [d] => simp [inline_string_decode, hne]
  | d :: l :: rest2 => simp [inline_string_decode, hne]

theorem roundtrip_char (c : Char) (h : needsEscape c = true) :
    Char.ofNat (16 * hexVal (hexDigit (c.toNat / 16)) + hexVal (hexDigit (c.toNat % 16))) = c := by
  rcases (needsEscape_iff c).mp h with rfl | rfl | rfl <;> decide

theorem decode_encode_aux (s : Str) :
    inline_string_decode (inline_string_encode s) = s := by
  induction s with
  | nil => rfl
  | cons c rest ih =>
    by_cases h : needsEscape c = true
    · rw [encode_esc c h, decode_esc, roundtrip_char c h, ih]
    · have hne : ¬ c = '$' := fun e => h (by simp [needsEscape, e])
      rw [encode_plain c (by simp_all), decode_plain c hne, ih]

/-- C1: the codec round-trips: for every string `s`, including the empty
string and strings containing the delimiter, the separator and the escape
character, `Decode (Encode s) = s`. -/
theorem codec_round_trip (s : Str) :
    inline_string_decode (inline_string_encode s) = s :=
  decode_encode_aux s

theorem encode_eq_self (s : Str) (h : ∀ c ∈ s, needsEscape c = false) :
    inline_string_encode s = s := by
  induction s with
  | nil => rfl
  | cons c rest ih =>
    rw [encode_plain c (h c (by simp)), ih (fun d hd => h d (by simp [hd]))]

theorem needsEscape_digit (n : Nat) (h : n < 10) :
    needsEscape (natDigitChar n) = false := by
  interval_cases n <;> decide

theorem natToStrGo_unescaped (fuel : Nat) :
    ∀ n acc, (∀ c ∈ acc, needsEscape c = false) →
      ∀ c ∈ natToStrGo fuel n acc, needsEscape c = false := by
  induction fuel with
  | zero =>
    intro n acc hacc c hc
    exact hacc c hc
  | succ fuel ih =>
    intro n acc hacc c hc
    simp only [natToStrGo] at hc
    by_cases hn : n < 10
    · rw [if_pos hn] at hc
      rcases List.mem_cons.mp hc with rfl | hc2
      · exact needsEscape_digit n hn
      · exact hacc c hc2
    · rw [if_neg hn] at hc
      refine ih (n / 10) _ ?_ c hc
      intro d hd
      rcases List.mem_cons.mp hd with rfl | hd2
      · exact needsEscape_digit _ (Nat.mod_lt n (by omega))
      · exact hacc d hd2

theorem natToStr_unescaped (n : Nat) : ∀ c ∈ natToStr n, needsEscape c = false :=
  natToStrGo_unescaped (n + 1) n [] (by simp)

theorem intToStr_unescaped (n : Int) : ∀ c ∈ intToStr n, needsEscape c = false := by
  intro c hc
  rw [intToStr] at hc
  split at hc
  · rcases List.mem_cons.mp hc with rfl | hc2
    · decide
    · exact natToStr_unescaped _ c hc2
  · exact natToStr_unescaped _ c hc

theorem doubleToStr_unescaped (n : Int) : ∀ c ∈ doubleToStr n, needsEscape c = false := by
  intro c hc
  rcases List.mem_append.mp hc with hc1 | hc2
  · exact intToStr_unescaped n c hc1
  · fin_cases hc2 <;> decide

theorem SerialiseValue_encodes (c : Control) (h : c.CanSerialiseValue = true) :
    c.SerialiseValue = inline_string_encode c.rawSerialValue := by
  cases c with
  | label b l => simp [Control.CanSerialiseValue] at h
  | edit b t => rfl
  | color b v a => rfl
  | textbox b t => rfl
  | intEdit b t v lo hi => exact (encode_eq_self _ (intToStr_unescaped v)).symm
  | floatEdit b t v lo hi st => exact (encode_eq_self _ (doubleToStr_unescaped v)).symm
  | dropdown b items v => rfl
  | checkbox b l bv => cases bv <;> rfl

theorem joinPipe_eq (e : Str) (es : List Str) :
    joinPipe (e :: es) = e ++ tailJoinPipe es := by
  induction es generalizing e with
  | nil => simp [joinPipe, tailJoinPipe]
  | cons f fs ih =>
    rw [show joinPipe (e :: f :: fs) = e ++ '|' :: joinPipe (f :: fs) from rfl, ih f]
    simp [tailJoinPipe]

theorem serialise_fold_ne (cs : List Control) (res : Str) (h : res ≠ []) :
    cs.foldl
      (fun res c =>
        if c.CanSerialiseValue then
          (if res = [] then res else res ++ ['|']) ++
            inline_string_encode c.name ++ ':' :: c.SerialiseValue
        else res)
      res
    = res ++ tailJoinPipe ((cs.filter (fun c => c.CanSerialiseValue)).map serialiseEntry) := by
  induction cs generalizing res with
  | nil => simp [tailJoinPipe]
  | cons c cs ih =>
    by_cases hc : c.CanSerialiseValue = true
    · rw [List.foldl_cons,
        show (if c.CanSerialiseValue = true then
            (if res = [] then res else res ++ ['|']) ++
              inline_string_encode c.name ++ ':' :: c.SerialiseValue
          else res) = res ++ '|' :: serialiseEntry c by
          simp [hc, h, serialiseEntry],
        ih _ (by simp)]
      simp [hc, tailJoinPipe, serialiseEntry]
    · rw [List.foldl_cons,
        show (if c.CanSerialiseValue = true then
            (if res = [] then res else res ++ ['|']) ++
              inline_string_encode c.name ++ ':' :: c.SerialiseValue
          else res) = res by simp [hc],
        ih _ h]
      simp [hc]

theorem serialise_fold_nil (cs : List Control) :
    cs.foldl
      (fun res c =>
        if c.CanSerialiseValue then
          (if res = [] then res else res ++ ['|']) ++
            inline_string_encode c.name ++ ':' :: c.SerialiseValue
        else res)
      []
    = joinPipe ((cs.filter (fun c => c.CanSerialiseValue)).map serialiseEntry) := by
  induction cs with
  | nil => rfl
  | cons c cs ih =>
    by_cases hc : c.CanSerialiseValue = true
    · rw [List.foldl_cons,
        show (if c.CanSerialiseValue = true then
            (if ([] : Str) = [] then ([] : Str) else [] ++ ['|']) ++
              inline_string_encode c.name ++ ':' :: c.SerialiseValue
          else []) = serialiseEntry c by simp [hc, serialiseEntry],
        serialise_fold_ne cs (serialiseEntry c) (by simp [serialiseEntry])]
      simp [hc, joinPipe_eq]
    · rw [List.foldl_cons,
        show (if c.CanSerialiseValue = true then
            (if ([] : Str) = [] then ([] : Str) else [] ++ ['|']) ++
              inline_string_encode c.name ++ ':' :: c.SerialiseValue
          else []) = [] by simp [hc],
        ih]
      simp [hc]

/-- C3: every string `Serialise` produces is the pipe-join, over the
serializable controls in order, of entries whose name part and value part
are both codec-encoded: each entry is
`Encode(name) ++ ":" ++ Encode(raw value)`.  For `Edit`, `Color` and
`Dropdown` the value is literally encoded; for `IntEdit`, `FloatEdit` and
`Checkbox` the printed value is its own encoding, so the emitted value
still equals `Encode` of the raw value. -/
theorem serialise_format_encoded (d : LuaDialog) :
    d.Serialise = joinPipe ((d.controls.filter (fun c => c.CanSerialiseValue)).map
      (fun c => inline_string_encode c.name ++ ':' :: inline_string_encode c.rawSerialValue)) := by
  rw [LuaDialog.Serialise, serialise_fold_nil]
  congr 1
  apply List.map_congr_left
  intro c hc
  rw [serialiseEntry, SerialiseValue_encodes c (List.mem_filter.mp hc).2]

/-- C2: for the dialog built from
`[Edit("a","hello|world"), IntEdit("b",5,min=0,max=10), Checkbox("c",true)]`,
serialising, then unserialising the output into a fresh dialog built from
the same descriptors (construction is deterministic, so the fresh dialog
is this one), reproduces the same readback values. -/
theorem serialise_unserialise_round_trip :
    ∃ d : LuaDialog,
      LuaDialog.build false c2arg1 (.vbool false) (.vbool false) = .ok d ∧
      (d.Unserialise d.Serialise).readBackValues = d.readBackValues := by
  exact ⟨_, rfl, by decide⟩

/-- C5: an IntEdit descriptor whose loaded min is greater than or equal
to its loaded max builds without error, and its effective range is the
full int range rather than the loaded pair. -/
theorem intedit_range_snap (desc : Descriptor)
    (h : getFieldInt desc (s2l "min") INT_MIN ≥ getFieldInt desc (s2l "max") INT_MAX) :
    (IntEdit.build desc).intRange = some (INT_MIN, INT_MAX) ∧
    (toLowerStr (getFieldStr desc (s2l "class") []) = s2l "intedit" →
      controlFromDescriptor (.vmap desc) = .ok (IntEdit.build desc)) := by
  constructor
  · simp [IntEdit.build, h, Control.intRange]
  · intro hc
    simp [controlFromDescriptor, hc]
    rw [if_neg (by decide), if_neg (by decide)]

/-- C5 witness: the inverted range min=10, max=5 snaps to the full int
range and the intedit class builds successfully. -/
theorem intedit_range_snap_witness :
    (IntEdit.build c5desc).intRange = some (INT_MIN, INT_MAX) ∧
    (toLowerStr (getFieldStr c5desc (s2l "class") []) = s2l "intedit" →
      controlFromDescriptor (.vmap c5desc) = .ok (IntEdit.build c5desc)) :=
  intedit_range_snap c5desc (by decide)

/-- C6: a Dropdown keeps its loaded value when the items list is empty or
contains it, and resets it to the first item when the items list is
non-empty and does not contain it. -/
theorem dropdown_membership_fix (desc : Descriptor) :
    (dropdownItems desc = [] ∨ getFieldStr desc (s2l "value") [] ∈ dropdownItems desc →
      (Dropdown.build desc).dropdownValue = some (getFieldStr desc (s2l "value") [])) ∧
    (∀ x xs, dropdownItems desc = x :: xs →
      getFieldStr desc (s2l "value") [] ∉ dropdownItems desc →
      (Dropdown.build desc).dropdownValue = some x) := by
  constructor
  · rintro (hemp | hmem)
    · simp [Dropdown.build, hemp, Control.dropdownValue]
    · simp [Dropdown.build, hmem, Control.dropdownValue]
  · intro x xs hitems hnot
    rw [hitems] at hnot
    simp [Dropdown.build, hitems, hnot, Control.dropdownValue]

/-- C6 witness: items `["a","b"]` with the stale value `"z"` yield the
effective value `"a"`. -/
theorem dropdown_membership_fix_witness :
    (Dropdown.build c6desc).dropdownValue = some (s2l "a") :=
  (dropdown_membership_fix c6desc).2 (s2l "a") [s2l "b"] rfl (by decide)

/-- C7: building with buttons requested and no button label list yields
exactly the two default buttons, (OK,"OK") then (CANCEL,"Cancel"). -/
theorem button_defaulting (arg1 : LuaValue) (cs : List Control)
    (h : buildControls arg1 = .ok cs) :
    LuaDialog.build true arg1 (.vbool false) (.vbool false) =
      .ok { use_buttons := true, controls := cs,
            buttons := [(BTN_OK, s2l "OK"), (BTN_CANCEL, s2l "Cancel")],
            button_pushed := -1 } := by
  simp [LuaDialog.build, h, readButtonLabels, iterValues, applyIdMap, iterPairs,
        Bind.bind, Except.bind, pure, Except.pure]

/-- C7 witness: an empty control table with buttons requested and no
labels yields the default OK/Cancel pair. -/
theorem button_defaulting_witness :
    LuaDialog.build true (.varr []) (.vbool false) (.vbool false) =
      .ok { use_buttons := true, controls := [],
            buttons := [(BTN_OK, s2l "OK"), (BTN_CANCEL, s2l "Cancel")],
            button_pushed := -1 } :=
  button_defaulting (.varr []) [] rfl

/-- C4: with `use_buttons` true the readback activation is `false`
(cancelled) exactly when no button was pushed (the -1 sentinel) or the
pushed button's id is CANCEL, and otherwise it is the pushed button's
label; with `use_buttons` false no activation value is yielded.  The
hypothesis is the state invariant construction and `PushButton`
maintain: the pushed index is the sentinel or in range. -/
theorem readback_activation (d : LuaDialog)
    (_hv : d.button_pushed = -1 ∨
      (0 ≤ d.button_pushed ∧ d.button_pushed < (d.buttons.length : Int))) :
    (d.use_buttons = false → d.readBackActivation = none) ∧
    (d.use_buttons = true →
      ((d.button_pushed = -1 ∨
          (d.buttons.getD d.button_pushed.toNat (0, [])).1 = BTN_CANCEL)
        ↔ d.readBackActivation = some .cancelled) ∧
      (∀ k : Nat, ∀ hk : k < d.buttons.length, d.button_pushed = (k : Int) →
        (d.buttons.get ⟨k, hk⟩).1 ≠ BTN_CANCEL →
        d.readBackActivation = some (.activated (d.buttons.get ⟨k, hk⟩).2))) := by
  refine ⟨fun hf => by simp [LuaDialog.readBackActivation, hf], fun ht => ⟨⟨?_, ?_⟩, ?_⟩⟩
  · intro hc
    unfold LuaDialog.readBackActivation
    rw [if_pos ht, if_pos hc]
  · intro he
    by_cases hcond : d.button_pushed = -1 ∨
        (d.buttons.getD d.button_pushed.toNat (0, [])).1 = BTN_CANCEL
    · exact hcond
    · exfalso
      unfold LuaDialog.readBackActivation at he
      rw [if_pos ht, if_neg hcond] at he
      simp at he
  · intro k hk hbp hnc
    have h1 : ¬ (d.button_pushed = -1 ∨
        (d.buttons.getD d.button_pushed.toNat (0, [])).1 = BTN_CANCEL) := by
      push_neg
      constructor
      · rw [hbp]
        omega
      · rw [hbp]
        have ht2 : ((k : Int)).toNat = k := rfl
        rw [ht2, List.getD_eq_getElem _ _ hk]
        simpa [List.get_eq_getElem] using hnc
    unfold LuaDialog.readBackActivation
    rw [if_pos ht, if_neg h1, hbp]
    have ht2 : ((k : Int)).toNat = k := rfl
    rw [ht2, List.getD_eq_getElem _ _ hk]
    simp [List.get_eq_getElem]

/-- C4 witness: in the concrete dialog with OK/Cancel buttons and the OK
button (index 0, id OK) pushed, the readback activation is the OK label. -/
theorem readback_activation_witness :
    wdialog.readBackActivation = some (.activated (s2l "OK")) :=
  ((readback_activation wdialog (Or.inr (by decide))).2 rfl).2 0 (by decide) rfl (by decide)

/-- C8: for a button id map entry (semantic name, label), the resolver
assigns `string_to_button_id` of the name to the first button whose label
matches, and when no supplied button has that label it raises a
construction error naming the semantic name. -/
theorem button_id_resolution (buttons : List (Int × Str)) (key label : Str) :
    (∀ i, ∀ hi : i < buttons.length, (buttons.get ⟨i, hi⟩).2 = label →
      (∀ j, ∀ hj : j < i, (buttons.get ⟨j, Nat.lt_trans hj hi⟩).2 ≠ label) →
      applyIdMapEntry buttons (.vstr key) (.vstr label) =
        .ok (buttons.set i (string_to_button_id key, label))) ∧
    ((∀ b ∈ buttons, b.2 ≠ label) →
      applyIdMapEntry buttons (.vstr key) (.vstr label) =
        .error (s2l "Invalid button for id " ++ key)) := by
  constructor
  · intro i hi hmatch hfirst
    have hfind : buttons.findIdx? (fun b => b.2 = label) = some i := by
      rw [List.findIdx?_eq_some_iff_getElem]
      refine ⟨hi, by simpa [List.get_eq_getElem] using hmatch, ?_⟩
      intro j hj
      simpa [List.get_eq_getElem] using hfirst j hj
    simp only [applyIdMapEntry, checkString, Bind.bind, Except.bind, hfind]
  · intro hnone
    have hfind : buttons.findIdx? (fun b => b.2 = label) = none := by
      rw [List.findIdx?_eq_none_iff]
      intro b hb
      simpa using hnone b hb
    simp only [applyIdMapEntry, checkString, Bind.bind, Except.bind, hfind]

/-- C8 witness: mapping "ok" to the label "Accept" assigns id OK to the
first button with that label, and mapping "ok" to the absent label "Nope"
raises the error naming "ok". -/
theorem button_id_resolution_witness :
    applyIdMapEntry c8buttons (.vstr (s2l "ok")) (.vstr (s2l "Accept")) =
      .ok (c8buttons.set 0 (string_to_button_id (s2l "ok"), s2l "Accept")) ∧
    applyIdMapEntry c8buttons (.vstr (s2l "ok")) (.vstr (s2l "Nope")) =
      .error (s2l "Invalid button for id " ++ s2l "ok") :=
  ⟨(button_id_resolution c8buttons (s2l "ok") (s2l "Accept")).1 0 (by decide) (by decide)
      (fun j hj => by omega),
   (button_id_resolution c8buttons (s2l "ok") (s2l "Nope")).2 (by decide)⟩

/-- C9: `Unserialise` never raises: it is the total fold of the per-token
step over the `|`-split; a token without `:` leaves the dialog unchanged;
a token whose decoded name matches no control leaves every control
unchanged; and every serializable control whose name matches receives the
same raw value. -/
theorem unserialise_tolerant (d : LuaDialog) :
    (∀ tok : Str, ':' ∉ tok → d.unserialiseTok tok = d) ∧
    (∀ tok enc v, splitFirstColon tok = some (enc, v) →
      ((∀ c ∈ d.controls, c.name ≠ inline_string_decode enc) →
        d.unserialiseTok tok = d) ∧
      (d.unserialiseTok tok).controls = d.controls.map (fun c =>
        if c.name = inline_string_decode enc ∧ c.CanSerialiseValue = true then
          c.UnserialiseValue v
        else c)) ∧
    (∀ s : Str, d.Unserialise s = (List.splitOn '|' s).foldl LuaDialog.unserialiseTok d) := by
  refine ⟨?_, ?_, fun s => rfl⟩
  · intro tok hno
    have hsplit : splitFirstColon tok = none := by
      induction tok with
      | nil => rfl
      | cons c rest ih =>
        have hc : ¬ c = ':' := fun e => hno (by simp [e])
        simp [splitFirstColon, hc, ih (fun e => hno (by simp [e]))]
    simp [LuaDialog.unserialiseTok, hsplit]
  · intro tok enc v hsplit
    constructor
    · intro hnomatch
      simp only [LuaDialog.unserialiseTok, hsplit]
      have hmap : d.controls.map (fun c =>
          if c.name = inline_string_decode enc ∧ c.CanSerialiseValue = true then
            c.UnserialiseValue v
          else c) = d.controls.map id := by
        apply List.map_congr_left
        intro c hc
        rw [if_neg (fun hcon => hnomatch c hc hcon.1)]
        rfl
      rw [hmap, List.map_id]
    · simp only [LuaDialog.unserialiseTok, hsplit]

/-- C9 witness: in the concrete dialog, a token without `:` is skipped, a
token with the unknown name "x" changes nothing, and the token "c:1"
hands the raw value "1" to the matching serializable control. -/
theorem unserialise_tolerant_witness :
    wdialog.unserialiseTok (s2l "nocolon") = wdialog ∧
    wdialog.unserialiseTok (s2l "x:1") = wdialog ∧
    (wdialog.unserialiseTok (s2l "c:1")).controls = wdialog.controls.map (fun c =>
      if c.name = inline_string_decode (s2l "c") ∧ c.CanSerialiseValue = true then
        c.UnserialiseValue (s2l "1")
      else c) :=
  ⟨(unserialise_tolerant wdialog).1 (s2l "nocolon") (by decide),
   ((unserialise_tolerant wdialog).2.1 (s2l "x:1") (s2l "x") (s2l "1") rfl).1 (by decide),
   ((unserialise_tolerant wdialog).2.1 (s2l "c:1") (s2l "c") (s2l "1") rfl).2⟩

/-- C10: in an Edit (or Textbox) descriptor the `text` key takes
precedence over the `value` key when both are present as strings, and
whichever of the two is present alone is used; both variants store that
text. -/
theorem edit_text_precedence (desc : Descriptor) :
    (∀ t, lookupField desc (s2l "text") = some (.vstr t) → Edit.buildText desc = t) ∧
    (∀ s, lookupField desc (s2l "text") = none →
      lookupField desc (s2l "value") = some (.vstr s) → Edit.buildText desc = s) ∧
    Edit.build desc = .edit (ControlBase.build desc) (Edit.buildText desc) ∧
    Textbox.build desc = .textbox (ControlBase.build desc) (Edit.buildText desc) := by
  refine ⟨?_, ?_, rfl, rfl⟩
  · intro t ht
    simp [Edit.buildText, getFieldStr, ht]
  · intro s hn hv
    simp [Edit.buildText, getFieldStr, hn, hv]

/-- C10 witness: with value="fromvalue" and text="fromtext" the stored
text is "fromtext". -/
theorem edit_text_precedence_witness :
    Edit.buildText c10desc = s2l "fromtext" :=
  (edit_text_precedence c10desc).1 (s2l "fromtext") rfl

end AegisubDialog
